import Mathlib

/-!
Verification of the reconciliation engine of the external-dns OpenStack
Designate webhook (package `internal/designate/provider`).

The Go source is embedded shallowly: Go maps become association lists with
insert-or-replace assignment and first-match lookup, Go early returns become
nested matches, the Designate transport becomes a record of response
functions, and the list of issued mutating API calls is made explicit so
that properties about remote calls can be stated.
-/

namespace DesignateSpec

/-! ## Association-list model of Go maps -/

/-- Lookup of a key in an association list: the value of the first pair whose
key matches, mirroring a Go map read with comma-ok. -/
def mapLookup {α : Type} : List (String × α) → String → Option α
  | [], _ => none
  | (k, v) :: rest, t => if k = t then some v else mapLookup rest t

/-- Assignment `m[k] = v` on a Go map: replace the value of an existing key,
otherwise append the new pair. -/
def mapInsert {α : Type} : List (String × α) → String → α → List (String × α)
  | [], k, v => [(k, v)]
  | (k', v') :: rest, k, v =>
      if k' = k then (k, v) :: rest else (k', v') :: mapInsert rest k v

/-- Read of a Go `map[string]string` without comma-ok: missing keys yield the
zero value `""`. -/
def mapGetD (m : List (String × String)) (k : String) : String :=
  (mapLookup m k).getD ""

/-! ## Character-list model of the Go strings functions

These helpers mirror `strings.HasSuffix`, `strings.ToLower`,
`strings.ToUpper`, `strings.TrimSuffix`, `strings.Split` and `strings.Join`
on the character list underlying a string, which keeps every definition
reducible by the kernel. Domain names, record types and statuses handled by
the provider are ASCII, where the character-wise case mapping agrees with
Go's. -/

/-- Go `strings.HasSuffix`. -/
def strEndsWith (s suf : String) : Bool :=
  List.isSuffixOf suf.data s.data

/-- Go `strings.ToLower` (ASCII). -/
def strToLower (s : String) : String :=
  ⟨s.data.map Char.toLower⟩

/-- Go `strings.ToUpper` (ASCII). -/
def strToUpper (s : String) : String :=
  ⟨s.data.map Char.toUpper⟩

/-- Go `strings.TrimSuffix`: remove one occurrence of the suffix when
present. -/
def trimSuffix (s suf : String) : String :=
  if strEndsWith s suf then ⟨s.data.take (s.data.length - suf.data.length)⟩
  else s

/-- Go `strings.Split` with a one-character separator. -/
def splitOnChar (sep : Char) : List Char → List String
  | [] => [""]
  | c :: rest =>
      match splitOnChar sep rest with
      | [] => if c = sep then ["", ""] else [⟨[c]⟩]
      | s :: ss =>
          if c = sep then "" :: s :: ss else ⟨c :: s.data⟩ :: ss

/-- Go `strings.Split` on the ASCII NUL separator. -/
def splitNul (s : String) : List String :=
  splitOnChar (Char.ofNat 0) s.data

/-- Go `strings.Join`. -/
def joinSep (sep : String) : List String → String
  | [] => ""
  | [x] => x
  | x :: y :: xs => x ++ sep ++ joinSep sep (y :: xs)

/-- Go `strings.Join` on the ASCII NUL separator. -/
def joinNul (xs : List String) : String :=
  joinSep ⟨[Char.ofNat 0]⟩ xs

/-! ## Data model -/

/-- Label key `designate-recordset-id` (constant `designateRecordSetID` in the
source). -/
def designateRecordSetID : String := "designate-recordset-id"

/-- Label key `designate-record-id` (constant `designateZoneID` in the
source). -/
def designateZoneID : String := "designate-record-id"

/-- Label key `designate-original-records` (constant
`designateOriginalRecords` in the source). -/
def designateOriginalRecords : String := "designate-original-records"

/-- Relevant fields of `endpoint.Endpoint` from sigs.k8s.io/external-dns:
DNS name, record type, target list, TTL and the string-label map. -/
structure Endpoint where
  dnsName : String
  recordType : String
  targets : List String
  recordTTL : Int
  labels : List (String × String)
  deriving Repr, DecidableEq

/-- Relevant fields of `zones.Zone` from gophercloud: identifier, name,
administrative type and status. -/
structure Zone where
  id : String
  name : String
  ztype : String
  status : String
  deriving Repr, DecidableEq

/-- Relevant fields of `recordsets.RecordSet` from gophercloud. -/
structure DesignateRecordSet where
  id : String
  zoneID : String
  name : String
  rtype : String
  ttl : Int
  records : List String
  deriving Repr, DecidableEq

/-- Argument structure of `recordsets.CreateOpts` as used by the provider. -/
structure CreateOpts where
  name : String
  rtype : String
  records : List String
  ttl : Int
  deriving Repr, DecidableEq

/-- Argument structure of `recordsets.UpdateOpts` as used by the provider. -/
structure UpdateOpts where
  records : List String
  ttl : Int
  deriving Repr, DecidableEq

/-- A mutating Designate API call issued by the provider. -/
inductive DnsCall where
  | create (zoneID : String) (opts : CreateOpts)
  | update (zoneID recordSetID : String) (opts : UpdateOpts)
  | delete (zoneID recordSetID : String)
  deriving Repr, DecidableEq

/-- Errors returned by the transport, modelled as message strings. -/
abbrev Err := String

/-- Response behaviour of the `DesignateClientInterface` collaborator: listing
results and the outcome of each mutating call. -/
structure ClientModel where
  zoneList : Except Err (List Zone)
  recordSetList : String → Except Err (List DesignateRecordSet)
  createRes : String → CreateOpts → Except Err String
  updateRes : String → String → UpdateOpts → Except Err Unit
  deleteRes : String → String → Except Err Unit

/-! ## Canonicalization (source `canonicalizeDomainNames`,
`canonicalizeDomainName`) -/

/-- Source function `canonicalizeDomainNames`: for each domain, only when it
does not already end in a dot, append a dot, lower-case it and keep it; a
domain that already ends in a dot is not appended to the output at all. -/
def canonicalizeDomainNames (domains : List String) : List String :=
  domains.foldl
    (fun cDomains d =>
      if ¬ strEndsWith d "." then cDomains ++ [strToLower (d ++ ".")]
      else cDomains)
    []

/-- Source function `canonicalizeDomainName`: append a trailing dot when
absent, then lower-case. -/
def canonicalizeDomainName (d : String) : String :=
  if ¬ strEndsWith d "." then strToLower (d ++ ".") else strToLower d

/-! ## Zone Index (source `getZones`) -/

/-- Inclusion test of the `getZones` callback, negated from the source's skip
condition `zone.Type != "" && strings.ToUpper(zone.Type) != "PRIMARY" ||
zone.Status != "ACTIVE"` and the domain-filter test. -/
def zoneSkipped (domainFilter : String → Bool) (zone : Zone) : Bool :=
  ((zone.ztype ≠ "" ∧ strToUpper zone.ztype ≠ "PRIMARY") ∨ zone.status ≠ "ACTIVE")
  ∨ ¬ domainFilter (canonicalizeDomainName zone.name)

/-- Pure part of source method `getZones`: fold the listed zones through the
callback, building the `zoneID → canonical name` map. -/
def getZonesList (domainFilter : String → Bool) (zs : List Zone) :
    List (String × String) :=
  zs.foldl
    (fun result zone =>
      if zoneSkipped domainFilter zone then result
      else mapInsert result zone.id (canonicalizeDomainName zone.name))
    []

/-- Source method `getZones` including transport failure of `ForEachZone`. -/
def getZones (domainFilter : String → Bool) (client : ClientModel) :
    Except Err (List (String × String)) :=
  match client.zoneList with
  | .error e => .error e
  | .ok zs => .ok (getZonesList domainFilter zs)

/-! ## Zone Matcher (source `getHostZoneID`) -/

/-- Source method `getHostZoneID`: keep the identifier of the suffix-matching
zone of greatest name length; the error result of the Go signature is always
nil and is omitted. -/
def getHostZoneID (hostname : String) (managedZones : List (String × String)) :
    String :=
  (managedZones.foldl
    (fun (acc : Nat × String) (zone : String × String) =>
      if strEndsWith hostname zone.2 ∧ zone.2.length > acc.1 then
        (zone.2.length, zone.1)
      else acc)
    (0, "")).2

/-! ## Endpoint Reader (source `Records`) -/

/-- Modelled dependency `endpoint.NewEndpointWithTTL` from
sigs.k8s.io/external-dns, which is not part of this repository: it trims one
trailing dot from the DNS name and from every target and starts with empty
labels. This behaviour is pinned by the repository's own test expectations in
`TestDesignateRecords`, where record set `www.example.com.` is expected to
come back as endpoint DNS name `www.example.com` and CNAME target
`sql.test.net.` as `sql.test.net`. -/
def newEndpointWithTTL (dnsName recordType : String) (ttl : Int)
    (targets : List String) : Endpoint :=
  { dnsName := trimSuffix dnsName "."
    recordType := recordType
    targets := targets.map (fun t => trimSuffix t ".")
    recordTTL := ttl
    labels := [] }

/-- Record types retained by the `Records` callback: A, TXT and CNAME. -/
def supportedType (t : String) : Bool :=
  t = "A" ∨ t = "TXT" ∨ t = "CNAME"

/-- Endpoint built by the `Records` callback for one retained record set:
the constructed endpoint with the three designate identity labels set. -/
def recordsEndpoint (r : DesignateRecordSet) : Endpoint :=
  let ep := newEndpointWithTTL r.name r.rtype r.ttl r.records
  { ep with
    labels :=
      mapInsert
        (mapInsert (mapInsert ep.labels designateRecordSetID r.id)
          designateZoneID r.zoneID)
        designateOriginalRecords (joinNul r.records) }

/-- Fold of the `Records` callback over one zone's record sets. -/
def recordsForZone (rss : List DesignateRecordSet) : List Endpoint :=
  rss.foldl
    (fun result r =>
      if ¬ supportedType r.rtype then result else result ++ [recordsEndpoint r])
    []

/-- Loop of source method `Records` over the managed zones, aborting on the
first `ForEachRecordSet` failure. -/
def recordsLoop (client : ClientModel) :
    List (String × String) → List Endpoint → Except Err (List Endpoint)
  | [], acc => .ok acc
  | (zoneID, _) :: rest, acc =>
      match client.recordSetList zoneID with
      | .error e => .error e
      | .ok rss => recordsLoop client rest (acc ++ recordsForZone rss)

/-- Source method `Records`: list managed zones, then their record sets. -/
def Records (domainFilter : String → Bool) (client : ClientModel) :
    Except Err (List Endpoint) :=
  match getZones domainFilter client with
  | .error e => .error e
  | .ok managedZones => recordsLoop client managedZones []

/-! ## Record-Set Aggregator (source `recordSet` struct, `addEndpoint`,
`addDesignateIDLabelsFromExistingEndpoints`) -/

/-- Source struct `recordSet`: the transient aggregation entry with the
target-to-wanted map. -/
structure RecordSetEntry where
  dnsName : String
  recordType : String
  zoneID : String
  recordSetID : String
  ttl : Int
  names : List (String × Bool)
  deriving Repr, DecidableEq

/-- Source function `addDesignateIDLabelsFromExistingEndpoints`: when one of
the two identity labels is missing, copy the missing ones from the first
existing endpoint with the same record type and the same DNS name. -/
def addDesignateIDLabelsFromExistingEndpoints (existingEndpoints : List Endpoint)
    (ep : Endpoint) : Endpoint :=
  let hasZoneIDLabel := (mapLookup ep.labels designateZoneID).isSome
  let hasRecordSetIDLabel := (mapLookup ep.labels designateRecordSetID).isSome
  if hasZoneIDLabel ∧ hasRecordSetIDLabel then ep
  else
    match existingEndpoints.find?
        (fun oep => ep.recordType == oep.recordType && ep.dnsName == oep.dnsName) with
    | none => ep
    | some oep =>
        let ep1 :=
          if hasZoneIDLabel then ep
          else { ep with
                 labels := mapInsert ep.labels designateZoneID
                   (mapGetD oep.labels designateZoneID) }
        if hasRecordSetIDLabel then ep1
        else { ep1 with
               labels := mapInsert ep1.labels designateRecordSetID
                 (mapGetD oep.labels designateRecordSetID) }

/-- Aggregation key used by `addEndpoint`:
`fmt.Sprintf("%s/%s", ep.DNSName, ep.RecordType)` on the raw DNS name. -/
def epKey (ep : Endpoint) : String :=
  ep.dnsName ++ "/" ++ ep.recordType

/-- Fresh aggregation entry seeded by `addEndpoint` when the key is new. -/
def newRecordSetEntry (ep : Endpoint) : RecordSetEntry :=
  { dnsName := canonicalizeDomainName ep.dnsName
    recordType := ep.recordType
    zoneID := ""
    recordSetID := ""
    ttl := ep.recordTTL
    names := [] }

/-- Replay of the `designate-original-records` label into the target map:
absent non-empty targets are marked wanted. -/
def applyBaseline (names : List (String × Bool)) (recs : List String) :
    List (String × Bool) :=
  recs.foldl
    (fun ns rec =>
      if mapLookup ns rec = none ∧ rec ≠ "" then mapInsert ns rec true else ns)
    names

/-- Targets of the incoming endpoint as marked by `addEndpoint`: CNAME targets
pass through `canonicalizeDomainNames` first. -/
def effectiveTargets (ep : Endpoint) : List String :=
  if ep.recordType = "CNAME" then canonicalizeDomainNames ep.targets
  else ep.targets

/-- Marking loop of `addEndpoint`: each target is set to wanted on an
add (create/update-new) and to unwanted on a removal (update-old/delete). -/
def markTargets (names : List (String × Bool)) (targets : List String)
    (del : Bool) : List (String × Bool) :=
  targets.foldl (fun ns t => mapInsert ns t (!del)) names

/-- Entry that `addEndpoint` stores under the key of the incoming endpoint:
the existing entry (or a fresh seed), with empty identifiers filled from the
repaired endpoint's labels and the target map updated by baseline replay and
then target marking. Factored out of `addEndpoint` so that theorems can name
it. -/
def addEndpointEntry (ep0 : Endpoint) (recordSets : List (String × RecordSetEntry))
    (oldEndpoints : List Endpoint) (del : Bool) : RecordSetEntry :=
  let rs :=
    match mapLookup recordSets (epKey ep0) with
    | some rs => rs
    | none => newRecordSetEntry ep0
  let ep := addDesignateIDLabelsFromExistingEndpoints oldEndpoints ep0
  let rs :=
    if rs.zoneID = "" then { rs with zoneID := mapGetD ep.labels designateZoneID }
    else rs
  let rs :=
    if rs.recordSetID = "" then
      { rs with recordSetID := mapGetD ep.labels designateRecordSetID }
    else rs
  let rs :=
    { rs with
      names := applyBaseline rs.names
        (splitNul (mapGetD ep.labels designateOriginalRecords)) }
  { rs with names := markTargets rs.names (effectiveTargets ep) del }

/-- Source function `addEndpoint`: store the updated entry under the raw
`dnsName/recordType` key. The in-place label repair of the incoming endpoint
is returned as the second component. -/
def addEndpoint (ep0 : Endpoint) (recordSets : List (String × RecordSetEntry))
    (oldEndpoints : List Endpoint) (del : Bool) :
    List (String × RecordSetEntry) × Endpoint :=
  (mapInsert recordSets (epKey ep0) (addEndpointEntry ep0 recordSets oldEndpoints del),
   addDesignateIDLabelsFromExistingEndpoints oldEndpoints ep0)

/-- Change batch `plan.Changes`: the four ordered endpoint lists. -/
structure Changes where
  create : List Endpoint
  updateOld : List Endpoint
  updateNew : List Endpoint
  delete : List Endpoint
  deriving Repr, DecidableEq

/-- Fold of `addEndpoint` over one of the four change lists, collecting the
repaired endpoints. -/
def addEndpoints (eps : List Endpoint) (recordSets : List (String × RecordSetEntry))
    (old : List Endpoint) (del : Bool) :
    List (String × RecordSetEntry) × List Endpoint :=
  eps.foldl
    (fun acc ep =>
      let step := addEndpoint ep acc.1 old del
      (step.1, acc.2 ++ [step.2]))
    (recordSets, [])

/-- Result of the aggregation phase of `ApplyChanges`: the record-set map and
the four change lists after in-place label repair. -/
structure FoldResult where
  recordSets : List (String × RecordSetEntry)
  create : List Endpoint
  updateOld : List Endpoint
  updateNew : List Endpoint
  delete : List Endpoint
  deriving Repr, DecidableEq

/-- Aggregation phase of `ApplyChanges`: creates, then update-olds (removals),
then update-news (additions), then deletes (removals). -/
def foldChanges (changes : Changes) (old : List Endpoint) : FoldResult :=
  let s1 := addEndpoints changes.create [] old false
  let s2 := addEndpoints changes.updateOld s1.1 old true
  let s3 := addEndpoints changes.updateNew s2.1 old false
  let s4 := addEndpoints changes.delete s3.1 old true
  ⟨s4.1, s1.2, s2.2, s3.2, s4.2⟩

/-! ## Reconcile Engine (source `upsertRecordSet`, `ApplyChanges`) -/

/-- Collection loop of `upsertRecordSet`: the targets whose wanted flag is
true, in map order. -/
def wantedRecords (rs : RecordSetEntry) : List String :=
  rs.names.foldl
    (fun records p => if p.2 then records ++ [p.1] else records) []

/-- Error component of a transport response: the Go `err` value returned
alongside or instead of a result. -/
def errOf {α : Type} : Except Err α → Option Err
  | .error e => some e
  | .ok _ => none

/-- Source method `upsertRecordSet`: resolve a missing zone, then create,
delete or update the remote record set depending on the presence of a
record-set identifier and on the wanted-target list. The first component
collects the mutating remote calls that were issued. -/
def upsertRecordSet (dryRun : Bool) (client : ClientModel) (rs0 : RecordSetEntry)
    (managedZones : List (String × String)) : List DnsCall × Option Err :=
  let zoneResolved : Option RecordSetEntry :=
    if rs0.zoneID = "" then
      let z := getHostZoneID rs0.dnsName managedZones
      if z = "" then none else some { rs0 with zoneID := z }
    else some rs0
  match zoneResolved with
  | none => ([], none)
  | some rs =>
      let records := wantedRecords rs
      if rs.recordSetID = "" ∧ records = [] then ([], none)
      else if rs.recordSetID = "" then
        if dryRun then ([], none)
        else
          let opts : CreateOpts := ⟨rs.dnsName, rs.recordType, records, rs.ttl⟩
          ([DnsCall.create rs.zoneID opts], errOf (client.createRes rs.zoneID opts))
      else if records = [] then
        if dryRun then ([], none)
        else
          ([DnsCall.delete rs.zoneID rs.recordSetID],
           errOf (client.deleteRes rs.zoneID rs.recordSetID))
      else
        if dryRun then ([], none)
        else
          let opts : UpdateOpts := ⟨records, rs.ttl⟩
          ([DnsCall.update rs.zoneID rs.recordSetID opts],
           errOf (client.updateRes rs.zoneID rs.recordSetID opts))

/-- Outcome of `ApplyChanges`: issued mutating calls, returned error and the
four change lists as left after the in-place label repair. -/
structure ApplyResult where
  calls : List DnsCall
  result : Option Err
  create : List Endpoint
  updateOld : List Endpoint
  updateNew : List Endpoint
  delete : List Endpoint
  deriving Repr, DecidableEq

/-- Mutation loop of `ApplyChanges` over the aggregated entries: every entry
is attempted and the first non-nil error is kept. -/
def upsertLoop (dryRun : Bool) (client : ClientModel)
    (entries : List (String × RecordSetEntry))
    (managedZones : List (String × String)) : List DnsCall × Option Err :=
  entries.foldl
    (fun acc krs =>
      let step := upsertRecordSet dryRun client krs.2 managedZones
      (acc.1 ++ step.1, if acc.2 = none then step.2 else acc.2))
    ([], none)

/-- Source method `ApplyChanges`: list zones, list current records (each a
hard stop on failure), aggregate the batch, then upsert every entry. -/
def applyChanges (dryRun : Bool) (domainFilter : String → Bool)
    (client : ClientModel) (changes : Changes) : ApplyResult :=
  match getZones domainFilter client with
  | .error e =>
      ⟨[], some e, changes.create, changes.updateOld, changes.updateNew,
        changes.delete⟩
  | .ok managedZones =>
      match Records domainFilter client with
      | .error e =>
          ⟨[], some ("failed to fetch active records: " ++ e), changes.create,
            changes.updateOld, changes.updateNew, changes.delete⟩
      | .ok endpoints =>
          let fr := foldChanges changes endpoints
          let loopRes := upsertLoop dryRun client fr.recordSets managedZones
          ⟨loopRes.1, loopRes.2, fr.create, fr.updateOld, fr.updateNew,
            fr.delete⟩

/-! ## Specification-side definitions

These definitions restate behaviour in the spec's vocabulary; theorems below
compare them with the source embedding. -/

/-- Case-insensitive string equality, as realized by upper-casing both
sides. -/
def eqIgnoreCase (a b : String) : Bool :=
  strToUpper a = strToUpper b

/-- Zone eligibility in the spec's words: administrative type empty or PRIMARY
case-insensitively, status exactly ACTIVE, canonical name accepted by the
domain filter. -/
def zoneIncluded (domainFilter : String → Bool) (z : Zone) : Bool :=
  (z.ztype == "" || eqIgnoreCase z.ztype "PRIMARY") && z.status == "ACTIVE"
    && domainFilter (canonicalizeDomainName z.name)

/-- Endpoint that the spec expects `Records` to produce for one retained
record set, with every field spelled out. -/
def endpointOfRecordSetSpec (r : DesignateRecordSet) : Endpoint :=
  { dnsName := trimSuffix r.name "."
    recordType := r.rtype
    targets := r.records.map (fun t => trimSuffix t ".")
    recordTTL := r.ttl
    labels := [(designateRecordSetID, r.id), (designateZoneID, r.zoneID),
               (designateOriginalRecords, joinNul r.records)] }

/-- The four change lists of a batch flattened into the order in which
`ApplyChanges` replays them, each endpoint tagged with its removal flag:
creates, update-olds (removals), update-news, deletes (removals). -/
def changeOps (changes : Changes) : List (Endpoint × Bool) :=
  changes.create.map (fun ep => (ep, false))
    ++ changes.updateOld.map (fun ep => (ep, true))
    ++ changes.updateNew.map (fun ep => (ep, false))
    ++ changes.delete.map (fun ep => (ep, true))

/-- All endpoints of a change batch in replay order. -/
def allChangeEndpoints (changes : Changes) : List Endpoint :=
  changes.create ++ changes.updateOld ++ changes.updateNew ++ changes.delete

/-- Replay of a flattened operation sequence through `addEndpoint`. -/
def runOps (old : List Endpoint) (ops : List (Endpoint × Bool))
    (m : List (String × RecordSetEntry)) : List (String × RecordSetEntry) :=
  ops.foldl (fun acc op => (addEndpoint op.1 acc old op.2).1) m

/-- Non-empty entries of the `designate-original-records` label of an
endpoint: the baseline targets its operation replays. -/
def origRecsOf (ep : Endpoint) : List String :=
  (splitNul (mapGetD ep.labels designateOriginalRecords)).filter
    (fun r => r ≠ "")

/-- Wanted flag of target `t` in the aggregated entry of key `k`: `none` when
the entry or the target is absent from the aggregation. -/
def wantedAt (m : List (String × RecordSetEntry)) (k t : String) : Option Bool :=
  match mapLookup m k with
  | some rs => mapLookup rs.names t
  | none => none

/-- Effect of one operation on the wanted flag of target `t`, in the spec's
words: a baseline entry only fills an absent flag, then an explicit mention
of `t` overrides with wanted on an add and unwanted on a removal. -/
def markStep (t : String) (st : Option Bool) (op : Endpoint × Bool) :
    Option Bool :=
  let st1 := if st = none ∧ t ∈ origRecsOf op.1 then some true else st
  if t ∈ effectiveTargets op.1 then some (!op.2) else st1

/-- First non-nil error of a result list, in order. -/
def firstSome (l : List (Option Err)) : Option Err :=
  (l.filterMap id).head?

/-- Zone identifier an entry is reconciled under: the stored one, or the Zone
Matcher's answer when the stored one is empty. -/
def resolvedZoneID (rs : RecordSetEntry) (zones : List (String × String)) :
    String :=
  if rs.zoneID = "" then getHostZoneID rs.dnsName zones else rs.zoneID

/-! ## Lemmas about the Go-map model -/

@[simp] theorem mapLookup_nil {α : Type} (t : String) :
    mapLookup ([] : List (String × α)) t = none := rfl

@[simp] theorem mapLookup_cons {α : Type} (k : String) (v : α)
    (rest : List (String × α)) (t : String) :
    mapLookup ((k, v) :: rest) t = if k = t then some v else mapLookup rest t :=
  rfl

theorem mapLookup_mapInsert {α : Type} (m : List (String × α)) (k : String)
    (v : α) (t : String) :
    mapLookup (mapInsert m k v) t = if k = t then some v else mapLookup m t := by
  induction m with
  | nil => simp [mapInsert]
  | cons p rest ih =>
      obtain ⟨k', v'⟩ := p
      by_cases hk : k' = k
      · subst hk
        by_cases ht : k' = t <;> simp [mapInsert, ht]
      · by_cases ht : k' = t
        · subst ht
          have hkt : k ≠ k' := fun h => hk h.symm
          simp [mapInsert, hk, hkt]
        · simp [mapInsert, hk, ht, ih]

theorem mapLookup_eq_none_iff {α : Type} (m : List (String × α)) (k : String) :
    mapLookup m k = none ↔ k ∉ m.map Prod.fst := by
  induction m with
  | nil => simp
  | cons p rest ih =>
      obtain ⟨k', v'⟩ := p
      by_cases hk : k' = k
      · subst hk
        simp
      · have hkk : k ≠ k' := fun h => hk h.symm
        simp [hk, hkk, ih]

theorem mapInsert_keys {α : Type} (m : List (String × α)) (k : String) (v : α) :
    (mapInsert m k v).map Prod.fst =
      if (mapLookup m k).isSome then m.map Prod.fst
      else m.map Prod.fst ++ [k] := by
  induction m with
  | nil => simp [mapInsert]
  | cons p rest ih =>
      obtain ⟨k', v'⟩ := p
      by_cases hk : k' = k
      · subst hk
        simp [mapInsert]
      · simp [mapInsert, hk, ih]
        by_cases hs : (mapLookup rest k).isSome <;> simp [hs]

theorem mapInsert_keys_nodup {α : Type} (m : List (String × α)) (k : String)
    (v : α) (h : (m.map Prod.fst).Nodup) :
    ((mapInsert m k v).map Prod.fst).Nodup := by
  rw [mapInsert_keys]
  by_cases hs : (mapLookup m k).isSome
  · simpa [hs] using h
  · have hnone : mapLookup m k = none := Option.not_isSome_iff_eq_none.mp hs
    have hnotin : k ∉ m.map Prod.fst := (mapLookup_eq_none_iff m k).mp hnone
    simp [hs, List.nodup_append, h, hnotin]

/-! ## Lemmas about the reconcile engine -/

theorem firstSome_cons (x : Option Err) (l : List (Option Err)) :
    firstSome (x :: l) = if x = none then firstSome l else x := by
  cases x <;> simp [firstSome]

theorem upsertRecordSet_dryRun_eq (client : ClientModel) (rs : RecordSetEntry)
    (zones : List (String × String)) :
    upsertRecordSet true client rs zones = ([], none) := by
  unfold upsertRecordSet
  by_cases hz : rs.zoneID = ""
  · by_cases hg : getHostZoneID rs.dnsName zones = "" <;>
      simp [hz, hg]
  · simp [hz]

theorem upsertLoop_spec (d : Bool) (client : ClientModel)
    (zones : List (String × String)) (entries : List (String × RecordSetEntry)) :
    upsertLoop d client entries zones =
      (entries.flatMap (fun krs => (upsertRecordSet d client krs.2 zones).1),
       firstSome
         (entries.map (fun krs => (upsertRecordSet d client krs.2 zones).2))) := by
  have haux : ∀ (es : List (String × RecordSetEntry))
      (acc : List DnsCall × Option Err),
      es.foldl
        (fun acc krs =>
          let step := upsertRecordSet d client krs.2 zones
          (acc.1 ++ step.1, if acc.2 = none then step.2 else acc.2)) acc =
      (acc.1 ++ es.flatMap (fun krs => (upsertRecordSet d client krs.2 zones).1),
       if acc.2 = none then
         firstSome (es.map (fun krs => (upsertRecordSet d client krs.2 zones).2))
       else acc.2) := by
    intro es
    induction es with
    | nil =>
        intro acc
        cases acc with
        | mk c e => cases e <;> simp [firstSome]
    | cons krs rest ih =>
        intro acc
        simp only [List.foldl_cons, ih, List.flatMap_cons, List.map_cons,
          firstSome_cons]
        cases acc with
        | mk c e =>
            cases e with
            | none =>
                simp only [List.append_assoc]
                by_cases hs : (upsertRecordSet d client krs.2 zones).2 = none <;>
                  simp [hs]
            | some err => simp
  simpa [upsertLoop] using haux entries ([], none)

/-- C9: with the dry-run flag set, the engine issues no CreateRecordSet,
UpdateRecordSet or DeleteRecordSet call and treats every suppressed mutation
as successful: `upsertRecordSet` returns no calls and a nil error for every
aggregated entry, and a whole `ApplyChanges` pass issues no mutating call. -/
theorem dryRun_suppresses_mutations :
    (∀ (client : ClientModel) (rs : RecordSetEntry)
       (zones : List (String × String)),
       upsertRecordSet true client rs zones = ([], none)) ∧
    (∀ (domainFilter : String → Bool) (client : ClientModel) (changes : Changes),
       (applyChanges true domainFilter client changes).calls = []) := by
  constructor
  · exact upsertRecordSet_dryRun_eq
  · intro f client changes
    cases hz : getZones f client with
    | error e => simp [applyChanges, hz]
    | ok mz =>
        cases hr : Records f client with
        | error e => simp [applyChanges, hz, hr]
        | ok eps =>
            simp [applyChanges, hz, hr, upsertLoop_spec,
              upsertRecordSet_dryRun_eq]

/-- C2: per aggregated entry, an empty zone that the Zone Matcher cannot
resolve is skipped with no error; otherwise, with records the wanted-true
targets, the engine performs no remote call when both record-set identifier
and records are empty, a create when only the identifier is empty, a delete
of the record set when only the records are empty, and an update of targets
and TTL when both are present. -/
theorem upsertRecordSet_four_way_branch (client : ClientModel)
    (rs : RecordSetEntry) (zones : List (String × String)) :
    (resolvedZoneID rs zones = "" →
       upsertRecordSet false client rs zones = ([], none)) ∧
    (resolvedZoneID rs zones ≠ "" → rs.recordSetID = "" → wantedRecords rs = [] →
       upsertRecordSet false client rs zones = ([], none)) ∧
    (resolvedZoneID rs zones ≠ "" → rs.recordSetID = "" → wantedRecords rs ≠ [] →
       (upsertRecordSet false client rs zones).1 =
         [DnsCall.create (resolvedZoneID rs zones)
            ⟨rs.dnsName, rs.recordType, wantedRecords rs, rs.ttl⟩]) ∧
    (resolvedZoneID rs zones ≠ "" → rs.recordSetID ≠ "" → wantedRecords rs = [] →
       (upsertRecordSet false client rs zones).1 =
         [DnsCall.delete (resolvedZoneID rs zones) rs.recordSetID]) ∧
    (resolvedZoneID rs zones ≠ "" → rs.recordSetID ≠ "" → wantedRecords rs ≠ [] →
       (upsertRecordSet false client rs zones).1 =
         [DnsCall.update (resolvedZoneID rs zones) rs.recordSetID
            ⟨wantedRecords rs, rs.ttl⟩]) := by
  by_cases hz : rs.zoneID = ""
  · by_cases hg : getHostZoneID rs.dnsName zones = ""
    · refine ⟨fun _ => by simp [upsertRecordSet, hz, hg],
        fun h => absurd (by simp [resolvedZoneID, hz, hg]) h,
        fun h => absurd (by simp [resolvedZoneID, hz, hg]) h,
        fun h => absurd (by simp [resolvedZoneID, hz, hg]) h,
        fun h => absurd (by simp [resolvedZoneID, hz, hg]) h⟩
    · refine ⟨fun h => absurd h (by simp [resolvedZoneID, hz, hg]),
        fun _ h1 h2 => ?_, fun _ h1 h2 => ?_, fun _ h1 h2 => ?_,
        fun _ h1 h2 => ?_⟩ <;>
      · simp only [wantedRecords] at h2
        simp [upsertRecordSet, resolvedZoneID, hz, hg, h1, h2, wantedRecords]
  · refine ⟨fun h => absurd h (by simp [resolvedZoneID, hz]),
      fun _ h1 h2 => ?_, fun _ h1 h2 => ?_, fun _ h1 h2 => ?_,
      fun _ h1 h2 => ?_⟩ <;>
    · simp only [wantedRecords] at h2
      simp [upsertRecordSet, resolvedZoneID, hz, h1, h2, wantedRecords]

/-- Witness for C2: a concrete entry with no stored zone, no record-set
identifier and one wanted target resolves its zone and issues exactly the
create call. -/
theorem upsertRecordSet_four_way_branch_witness :
    (upsertRecordSet false
        ⟨.ok [], fun _ => .ok [], fun _ _ => .ok "id-1", fun _ _ _ => .ok (),
          fun _ _ => .ok ()⟩
        ⟨"www.example.com.", "A", "", "", 300, [("10.1.1.1", true)]⟩
        [("zone-1", "example.com.")]).1 =
      [DnsCall.create "zone-1" ⟨"www.example.com.", "A", ["10.1.1.1"], 300⟩] := by
  have h := (upsertRecordSet_four_way_branch
      ⟨.ok [], fun _ => .ok [], fun _ _ => .ok "id-1", fun _ _ _ => .ok (),
        fun _ _ => .ok ()⟩
      ⟨"www.example.com.", "A", "", "", 300, [("10.1.1.1", true)]⟩
      [("zone-1", "example.com.")]).2.2.1 (by decide) (by decide) (by decide)
  exact h.trans (by decide)

/-! ## Zone Index lemmas -/

theorem zoneSkipped_eq_not_included (domainFilter : String → Bool) (z : Zone) :
    zoneSkipped domainFilter z = !zoneIncluded domainFilter z := by
  have hp : strToUpper "PRIMARY" = "PRIMARY" := by decide
  by_cases h1 : z.ztype = "" <;>
    by_cases h2 : strToUpper z.ztype = "PRIMARY" <;>
      by_cases h3 : z.status = "ACTIVE" <;>
        by_cases h4 : domainFilter (canonicalizeDomainName z.name) <;>
          simp [zoneSkipped, zoneIncluded, eqIgnoreCase, hp, h1, h2, h3, h4]

theorem getZonesList_lookup_isSome (domainFilter : String → Bool)
    (zs : List Zone) (acc : List (String × String)) (k : String) :
    (mapLookup
        (zs.foldl
          (fun result zone =>
            if zoneSkipped domainFilter zone then result
            else mapInsert result zone.id (canonicalizeDomainName zone.name))
          acc) k).isSome =
      (zs.any (fun z => zoneIncluded domainFilter z && z.id == k)
        || (mapLookup acc k).isSome) := by
  induction zs generalizing acc with
  | nil => simp
  | cons z rest ih =>
      simp only [List.foldl_cons, List.any_cons]
      rw [ih, zoneSkipped_eq_not_included]
      by_cases hi : zoneIncluded domainFilter z
      · by_cases hk : z.id = k
        · simp [hi, hk, mapLookup_mapInsert]
        · have hbk : (z.id == k) = false := by simp [hk]
          simp [hi, hk, hbk, mapLookup_mapInsert]
      · simp [hi]

theorem getZonesList_lookup_value (domainFilter : String → Bool)
    (zs : List Zone) (acc : List (String × String)) (k v : String) :
    mapLookup
        (zs.foldl
          (fun result zone =>
            if zoneSkipped domainFilter zone then result
            else mapInsert result zone.id (canonicalizeDomainName zone.name))
          acc) k = some v →
      (∃ z ∈ zs, zoneIncluded domainFilter z = true ∧ z.id = k ∧
         v = canonicalizeDomainName z.name) ∨ mapLookup acc k = some v := by
  induction zs generalizing acc with
  | nil =>
      intro h
      exact Or.inr h
  | cons z rest ih =>
      simp only [List.foldl_cons]
      rw [zoneSkipped_eq_not_included]
      intro h
      by_cases hi : zoneIncluded domainFilter z
      · rw [if_neg (by simp [hi])] at h
        rcases ih _ h with hfound | hacc
        · obtain ⟨z', hz', hrest⟩ := hfound
          exact Or.inl ⟨z', List.mem_cons_of_mem z hz', hrest⟩
        · rw [mapLookup_mapInsert] at hacc
          by_cases hk : z.id = k
          · simp only [hk, if_pos rfl] at hacc
            exact Or.inl ⟨z, List.mem_cons_self z rest,
              hi, hk, (Option.some.injEq _ _).mp hacc.symm⟩
          · simp only [if_neg hk] at hacc
            exact Or.inr hacc
      · rw [if_pos (by simp [hi])] at h
        rcases ih _ h with hfound | hacc
        · obtain ⟨z', hz', hrest⟩ := hfound
          exact Or.inl ⟨z', List.mem_cons_of_mem z hz', hrest⟩
        · exact Or.inr hacc

/-- C8: a zone enters the `getZones` mapping exactly when its administrative
type is empty or case-insensitively PRIMARY, its status is exactly ACTIVE and
the domain filter accepts its canonicalized name; the mapping then sends the
zone identifier to the canonical (lower-cased, dot-terminated) name. -/
theorem getZones_inclusion (domainFilter : String → Bool) (zs : List Zone) :
    (∀ k, (mapLookup (getZonesList domainFilter zs) k).isSome = true ↔
       ∃ z ∈ zs, zoneIncluded domainFilter z = true ∧ z.id = k) ∧
    (∀ k v, mapLookup (getZonesList domainFilter zs) k = some v →
       ∃ z ∈ zs, zoneIncluded domainFilter z = true ∧ z.id = k ∧
         v = canonicalizeDomainName z.name) := by
  constructor
  · intro k
    rw [getZonesList, getZonesList_lookup_isSome]
    simp [List.any_eq_true]
  · intro k v h
    rw [getZonesList] at h
    rcases getZonesList_lookup_value domainFilter zs [] k v h with hf | hacc
    · exact hf
    · simp at hacc

/-- Witness for C8: a concrete PRIMARY/ACTIVE zone with a mixed-case name is
reported under its canonical name. -/
theorem getZones_inclusion_witness :
    ∃ z ∈ [Zone.mk "z1" "Example.COM" "primary" "ACTIVE"],
      zoneIncluded (fun _ => true) z = true ∧ z.id = "z1" ∧
        "example.com." = canonicalizeDomainName z.name :=
  (getZones_inclusion (fun _ => true)
      [Zone.mk "z1" "Example.COM" "primary" "ACTIVE"]).2 "z1" "example.com."
    (by decide)

/-! ## Endpoint Reader lemmas -/

theorem recordsEndpoint_eq_spec (r : DesignateRecordSet) :
    recordsEndpoint r = endpointOfRecordSetSpec r := by
  have h1 : designateRecordSetID ≠ designateZoneID := by decide
  have h2 : designateRecordSetID ≠ designateOriginalRecords := by decide
  have h3 : designateZoneID ≠ designateOriginalRecords := by decide
  simp [recordsEndpoint, endpointOfRecordSetSpec, newEndpointWithTTL,
    mapInsert, h1, h2, h3]

theorem recordsForZone_eq_spec (rss : List DesignateRecordSet) :
    recordsForZone rss =
      (rss.filter (fun r => supportedType r.rtype)).map endpointOfRecordSetSpec := by
  have haux : ∀ (l : List DesignateRecordSet) (acc : List Endpoint),
      l.foldl
        (fun result r =>
          if ¬ supportedType r.rtype then result
          else result ++ [recordsEndpoint r]) acc =
      acc ++ (l.filter (fun r => supportedType r.rtype)).map endpointOfRecordSetSpec := by
    intro l
    induction l with
    | nil => intro acc; simp
    | cons r rest ih =>
        intro acc
        simp only [List.foldl_cons]
        by_cases hs : supportedType r.rtype
        · rw [if_neg (by simp [hs]), ih]
          simp [hs, recordsEndpoint_eq_spec]
        · rw [if_pos (by simp [hs]), ih]
          simp [hs]
  simpa [recordsForZone] using haux rss []

theorem recordsLoop_ok (client : ClientModel)
    (rssOf : String → List DesignateRecordSet)
    (hr : ∀ zid, client.recordSetList zid = .ok (rssOf zid)) :
    ∀ (zonePairs : List (String × String)) (acc : List Endpoint),
      recordsLoop client zonePairs acc =
        .ok (acc ++ zonePairs.flatMap (fun p => recordsForZone (rssOf p.1))) := by
  intro zonePairs
  induction zonePairs with
  | nil => intro acc; simp [recordsLoop]
  | cons p rest ih =>
      intro acc
      obtain ⟨zid, zname⟩ := p
      simp [recordsLoop, hr zid, ih]

/-- C6 amended: for every managed zone, `Records` produces exactly one
endpoint per record set of type A, TXT or CNAME and none for other types; the
endpoint's hostname is the record-set name with its trailing dot removed (the
endpoint constructor of the external-dns library trims it, as the
repository's `TestDesignateRecords` expects), targets are the record set's
value list in order each with its trailing dot removed, the TTL is the record
set's, and the labels hold the record-set identifier, the zone identifier and
the raw targets joined by the ASCII NUL separator. -/
theorem Records_characterization (domainFilter : String → Bool)
    (client : ClientModel) (zs : List Zone)
    (rssOf : String → List DesignateRecordSet)
    (hz : client.zoneList = .ok zs)
    (hr : ∀ zid, client.recordSetList zid = .ok (rssOf zid)) :
    Records domainFilter client =
      .ok ((getZonesList domainFilter zs).flatMap
        (fun p => ((rssOf p.1).filter (fun r => supportedType r.rtype)).map
          endpointOfRecordSetSpec)) := by
  simp only [Records, getZones, hz]
  rw [recordsLoop_ok client rssOf hr (getZonesList domainFilter zs) []]
  simp [recordsForZone_eq_spec]

/-- Witness for C6: one zone with an A, an unsupported SRV and a CNAME record
set yields exactly the two supported endpoints, dots trimmed, raw targets in
the original-records label. -/
theorem Records_characterization_witness :
    Records (fun _ => true)
        ⟨.ok [⟨"z1", "example.com.", "PRIMARY", "ACTIVE"⟩],
          fun _ => .ok
            [⟨"rs-1", "z1", "www.example.com.", "A", 300, ["10.1.1.1"]⟩,
             ⟨"rs-2", "z1", "xxx.example.com.", "SRV", 0, ["http://test.com:1234"]⟩,
             ⟨"rs-3", "z1", "db.example.com.", "CNAME", 0, ["sql.test.net."]⟩],
          fun _ _ => .ok "", fun _ _ _ => .ok (), fun _ _ => .ok ()⟩ =
      .ok
        [⟨"www.example.com", "A", ["10.1.1.1"], 300,
           [(designateRecordSetID, "rs-1"), (designateZoneID, "z1"),
            (designateOriginalRecords, "10.1.1.1")]⟩,
         ⟨"db.example.com", "CNAME", ["sql.test.net"], 0,
           [(designateRecordSetID, "rs-3"), (designateZoneID, "z1"),
            (designateOriginalRecords, "sql.test.net.")]⟩] := by
  have h := Records_characterization (fun _ => true)
      ⟨.ok [⟨"z1", "example.com.", "PRIMARY", "ACTIVE"⟩],
        fun _ => .ok
          [⟨"rs-1", "z1", "www.example.com.", "A", 300, ["10.1.1.1"]⟩,
           ⟨"rs-2", "z1", "xxx.example.com.", "SRV", 0, ["http://test.com:1234"]⟩,
           ⟨"rs-3", "z1", "db.example.com.", "CNAME", 0, ["sql.test.net."]⟩],
        fun _ _ => .ok "", fun _ _ _ => .ok (), fun _ _ => .ok ()⟩
      [⟨"z1", "example.com.", "PRIMARY", "ACTIVE"⟩]
      (fun _ =>
        [⟨"rs-1", "z1", "www.example.com.", "A", 300, ["10.1.1.1"]⟩,
         ⟨"rs-2", "z1", "xxx.example.com.", "SRV", 0, ["http://test.com:1234"]⟩,
         ⟨"rs-3", "z1", "db.example.com.", "CNAME", 0, ["sql.test.net."]⟩])
      rfl (fun _ => rfl)
  exact h.trans (congrArg Except.ok (by decide))

/-- Counterexample for C6 as stated: a record set named `www.example.com.`
comes back as an endpoint whose hostname is `www.example.com`, so the
trailing dot of the wire format is not preserved. -/
theorem Records_trailing_dot_counterexample :
    (Records (fun _ => true)
        ⟨.ok [⟨"z1", "example.com.", "PRIMARY", "ACTIVE"⟩],
          fun _ => .ok [⟨"rs-1", "z1", "www.example.com.", "A", 300, ["10.1.1.1"]⟩],
          fun _ _ => .ok "", fun _ _ _ => .ok (), fun _ _ => .ok ()⟩).toOption =
      some
        [⟨"www.example.com", "A", ["10.1.1.1"], 300,
           [(designateRecordSetID, "rs-1"), (designateZoneID, "z1"),
            (designateOriginalRecords, "10.1.1.1")]⟩] ∧
    "www.example.com" ≠ "www.example.com." := by
  constructor
  · decide
  · decide

/-! ## Zone Matcher evaluation -/

/-- C3: evaluation of the Zone Matcher at the input of the repository's own
`TestGetHostZoneID` case named "should not match on suffix". The raw
string-suffix match of the source picks the longer zone `test.example.com.`,
because that name is a plain string suffix of `first-test.example.com.`,
although the test and the spec require `example.com.` (label-boundary
matching). -/
theorem getHostZoneID_boundary_failing_input :
    getHostZoneID "first-test.example.com."
        [("example.com.", "example.com."),
         ("test.example.com.", "test.example.com.")] = "test.example.com." ∧
    strEndsWith "first-test.example.com." "test.example.com." = true ∧
    "test.example.com." ≠ "example.com." := by
  refine ⟨by decide, by decide, by decide⟩

/-! ## Canonicalization evaluation -/

/-- C4: `canonicalizeDomainNames` drops a CNAME target that already ends in a
trailing dot instead of keeping it, while a dotless target is canonicalized;
consequently a create of a CNAME endpoint whose target is already a FQDN
produces an aggregated entry with an empty target map, losing the target. -/
theorem canonicalizeDomainNames_drops_dotted_target :
    canonicalizeDomainNames ["foo.example.com."] = [] ∧
    canonicalizeDomainNames ["Foo.Example.Com"] = ["foo.example.com."] ∧
    (addEndpoint ⟨"app.example.com", "CNAME", ["foo.example.com."], 300, []⟩
        [] [] false).1 =
      [("app.example.com/CNAME",
        ⟨"app.example.com.", "CNAME", "", "", 300, []⟩)] := by
  refine ⟨by decide, by decide, by decide⟩

/-! ## Aggregation-key lemmas -/

/-- Counterexample for C5 as stated: two create operations whose hostnames
are equal after canonicalization but differ as raw strings produce two
aggregated entries, not one. -/
theorem foldChanges_canonical_key_counterexample :
    canonicalizeDomainName "a.com" = canonicalizeDomainName "a.com." ∧
    (foldChanges
        ⟨[⟨"a.com", "A", ["1.1.1.1"], 300, []⟩,
          ⟨"a.com.", "A", ["1.1.1.1"], 300, []⟩], [], [], []⟩
        []).recordSets.length = 2 := by
  refine ⟨by decide, by decide⟩

theorem mapLookup_addEndpoint (ep : Endpoint) (m : List (String × RecordSetEntry))
    (old : List Endpoint) (del : Bool) (k : String) :
    mapLookup (addEndpoint ep m old del).1 k =
      if epKey ep = k then some (addEndpointEntry ep m old del)
      else mapLookup m k := by
  simp [addEndpoint, mapLookup_mapInsert]

theorem addEndpointEntry_meta (ep : Endpoint) (m : List (String × RecordSetEntry))
    (old : List Endpoint) (del : Bool) :
    ((addEndpointEntry ep m old del).dnsName,
     (addEndpointEntry ep m old del).recordType) =
      match mapLookup m (epKey ep) with
      | some rs0 => (rs0.dnsName, rs0.recordType)
      | none => (canonicalizeDomainName ep.dnsName, ep.recordType) := by
  unfold addEndpointEntry
  cases hl : mapLookup m (epKey ep) <;>
    simp [hl, newRecordSetEntry] <;> split_ifs <;> simp

theorem runOps_nil (old : List Endpoint) (m : List (String × RecordSetEntry)) :
    runOps old [] m = m := rfl

theorem runOps_cons (old : List Endpoint) (op : Endpoint × Bool)
    (ops : List (Endpoint × Bool)) (m : List (String × RecordSetEntry)) :
    runOps old (op :: ops) m = runOps old ops (addEndpoint op.1 m old op.2).1 :=
  rfl

theorem runOps_append (old : List Endpoint) (l1 l2 : List (Endpoint × Bool))
    (m : List (String × RecordSetEntry)) :
    runOps old (l1 ++ l2) m = runOps old l2 (runOps old l1 m) := by
  simp [runOps, List.foldl_append]

theorem addEndpoints_fst (eps : List Endpoint)
    (m : List (String × RecordSetEntry)) (old : List Endpoint) (del : Bool) :
    (addEndpoints eps m old del).1 =
      runOps old (eps.map (fun ep => (ep, del))) m := by
  have haux : ∀ (l : List Endpoint)
      (acc : List (String × RecordSetEntry) × List Endpoint),
      (l.foldl
        (fun acc ep =>
          let step := addEndpoint ep acc.1 old del
          (step.1, acc.2 ++ [step.2])) acc).1 =
        runOps old (l.map (fun ep => (ep, del))) acc.1 := by
    intro l
    induction l with
    | nil => intro acc; simp [runOps]
    | cons e rest ih => intro acc; simpa [runOps] using ih _
  exact haux eps (m, [])

theorem addEndpoints_snd (eps : List Endpoint)
    (m : List (String × RecordSetEntry)) (old : List Endpoint) (del : Bool) :
    (addEndpoints eps m old del).2 =
      eps.map (addDesignateIDLabelsFromExistingEndpoints old) := by
  have haux : ∀ (l : List Endpoint)
      (acc : List (String × RecordSetEntry) × List Endpoint),
      (l.foldl
        (fun acc ep =>
          let step := addEndpoint ep acc.1 old del
          (step.1, acc.2 ++ [step.2])) acc).2 =
        acc.2 ++ l.map (addDesignateIDLabelsFromExistingEndpoints old) := by
    intro l
    induction l with
    | nil => intro acc; simp
    | cons e rest ih =>
        intro acc
        simp only [List.foldl_cons]
        rw [ih]
        simp [addEndpoint]
  simpa using haux eps (m, [])

theorem foldChanges_recordSets (changes : Changes) (old : List Endpoint) :
    (foldChanges changes old).recordSets = runOps old (changeOps changes) [] := by
  simp [foldChanges, changeOps, addEndpoints_fst, runOps_append]

theorem runOps_keys_nodup (old : List Endpoint) (ops : List (Endpoint × Bool)) :
    ∀ m : List (String × RecordSetEntry),
      (m.map Prod.fst).Nodup → ((runOps old ops m).map Prod.fst).Nodup := by
  induction ops with
  | nil => intro m h; simpa [runOps] using h
  | cons op rest ih =>
      intro m h
      rw [runOps_cons]
      exact ih _ (by simpa [addEndpoint] using
        mapInsert_keys_nodup m (epKey op.1) (addEndpointEntry op.1 m old op.2) h)

theorem runOps_lookup_isSome (old : List Endpoint) (ops : List (Endpoint × Bool)) :
    ∀ (m : List (String × RecordSetEntry)) (k : String),
      (mapLookup (runOps old ops m) k).isSome =
        (ops.any (fun op => epKey op.1 == k) || (mapLookup m k).isSome) := by
  induction ops with
  | nil => intro m k; simp [runOps]
  | cons op rest ih =>
      intro m k
      rw [runOps_cons, ih]
      by_cases hk : epKey op.1 = k
      · simp [mapLookup_addEndpoint, hk]
      · have hbk : (epKey op.1 == k) = false := by simp [hk]
        simp [mapLookup_addEndpoint, hk, hbk]

theorem runOps_lookup_meta (old : List Endpoint) (ops : List (Endpoint × Bool)) :
    ∀ (m : List (String × RecordSetEntry)) (k : String) (rs : RecordSetEntry),
      mapLookup (runOps old ops m) k = some rs →
        (∃ op ∈ ops, epKey op.1 = k ∧
           rs.dnsName = canonicalizeDomainName op.1.dnsName ∧
           rs.recordType = op.1.recordType) ∨
        (∃ rs0, mapLookup m k = some rs0 ∧ rs.dnsName = rs0.dnsName ∧
           rs.recordType = rs0.recordType) := by
  induction ops with
  | nil =>
      intro m k rs h
      exact Or.inr ⟨rs, by simpa [runOps] using h, rfl, rfl⟩
  | cons op rest ih =>
      intro m k rs h
      rw [runOps_cons] at h
      rcases ih _ _ _ h with hfound | ⟨rs0, hm, hdns, htype⟩
      · obtain ⟨op', hop', hrest⟩ := hfound
        exact Or.inl ⟨op', List.mem_cons_of_mem op hop', hrest⟩
      · rw [mapLookup_addEndpoint] at hm
        by_cases hk : epKey op.1 = k
        · rw [if_pos hk] at hm
          have hrs0 : rs0 = addEndpointEntry op.1 m old op.2 :=
            (Option.some.injEq _ _).mp hm.symm
          have hmeta := addEndpointEntry_meta op.1 m old op.2
          cases hl : mapLookup m (epKey op.1) with
          | some rs1 =>
              rw [hl] at hmeta
              refine Or.inr ⟨rs1, ?_, ?_, ?_⟩
              · rw [← hk]; exact hl
              · rw [hdns, hrs0, (Prod.mk.injEq _ _ _ _).mp hmeta |>.1]
              · rw [htype, hrs0, (Prod.mk.injEq _ _ _ _).mp hmeta |>.2]
          | none =>
              rw [hl] at hmeta
              refine Or.inl ⟨op, List.mem_cons_self op rest, hk, ?_, ?_⟩
              · rw [hdns, hrs0, (Prod.mk.injEq _ _ _ _).mp hmeta |>.1]
              · rw [htype, hrs0, (Prod.mk.injEq _ _ _ _).mp hmeta |>.2]
        · rw [if_neg hk] at hm
          exact Or.inr ⟨rs0, hm, hdns, htype⟩

theorem exists_changeOp_of_mem (changes : Changes) (ep : Endpoint)
    (h : ep ∈ allChangeEndpoints changes) : ∃ b, (ep, b) ∈ changeOps changes := by
  simp only [allChangeEndpoints, List.mem_append] at h
  rcases h with ((h | h) | h) | h
  · exact ⟨false, List.mem_append_left _ (List.mem_append_left _
      (List.mem_append_left _ (List.mem_map_of_mem _ h)))⟩
  · exact ⟨true, List.mem_append_left _ (List.mem_append_left _
      (List.mem_append_right _ (List.mem_map_of_mem _ h)))⟩
  · exact ⟨false, List.mem_append_left _
      (List.mem_append_right _ (List.mem_map_of_mem _ h))⟩
  · exact ⟨true, List.mem_append_right _ (List.mem_map_of_mem _ h)⟩

theorem mem_all_of_mem_changeOps (changes : Changes) (op : Endpoint × Bool)
    (h : op ∈ changeOps changes) : op.1 ∈ allChangeEndpoints changes := by
  simp only [changeOps, List.mem_append, List.mem_map] at h
  simp only [allChangeEndpoints, List.mem_append]
  rcases h with (((⟨e, he, rfl⟩ | ⟨e, he, rfl⟩) | ⟨e, he, rfl⟩) | ⟨e, he, rfl⟩)
  · exact Or.inl (Or.inl (Or.inl he))
  · exact Or.inl (Or.inl (Or.inr he))
  · exact Or.inl (Or.inr he)
  · exact Or.inr he

/-- C5 corrected: the aggregation map binds every key at most once and is
keyed by the RAW hostname and record type (`dnsName/recordType` with the
hostname not canonicalized), so two operations land in the same single entry
exactly when their raw hostnames and record types agree; the stored dnsName
of an entry is the canonicalized hostname of an operation that produced
it. -/
theorem foldChanges_raw_key_aggregation (changes : Changes) (old : List Endpoint) :
    ((foldChanges changes old).recordSets.map Prod.fst).Nodup ∧
    (∀ ep1 ep2 : Endpoint, ep1.dnsName = ep2.dnsName →
       ep1.recordType = ep2.recordType → epKey ep1 = epKey ep2) ∧
    (∀ ep ∈ allChangeEndpoints changes,
       (mapLookup (foldChanges changes old).recordSets (epKey ep)).isSome = true) ∧
    (∀ k rs, mapLookup (foldChanges changes old).recordSets k = some rs →
       ∃ ep ∈ allChangeEndpoints changes, epKey ep = k ∧
         rs.dnsName = canonicalizeDomainName ep.dnsName ∧
         rs.recordType = ep.recordType) := by
  refine ⟨?_, ?_, ?_, ?_⟩
  · rw [foldChanges_recordSets]
    exact runOps_keys_nodup old (changeOps changes) [] (by simp)
  · intro ep1 ep2 h1 h2
    simp [epKey, h1, h2]
  · intro ep hep
    rw [foldChanges_recordSets, runOps_lookup_isSome]
    obtain ⟨b, hb⟩ := exists_changeOp_of_mem changes ep hep
    have hany : (changeOps changes).any (fun op => epKey op.1 == epKey ep) = true :=
      List.any_eq_true.mpr ⟨(ep, b), hb, by simp⟩
    simp [hany]
  · intro k rs h
    rw [foldChanges_recordSets] at h
    rcases runOps_lookup_meta old (changeOps changes) [] k rs h with hf | ⟨rs0, h0, _, _⟩
    · obtain ⟨op, hop, hkey, hd, ht⟩ := hf
      exact ⟨op.1, mem_all_of_mem_changeOps changes op hop, hkey, hd, ht⟩
    · simp at h0

/-- Witness for C5 corrected: a create and a delete with the same raw
hostname `a.com` and type A land in the single entry keyed `a.com/A`, whose
stored dnsName is canonical. -/
theorem foldChanges_raw_key_aggregation_witness :
    ∃ ep ∈ allChangeEndpoints
        ⟨[⟨"a.com", "A", ["1.1.1.1"], 300, []⟩], [], [],
         [⟨"a.com", "A", ["1.1.1.1"], 300, []⟩]⟩,
      epKey ep = "a.com/A" ∧
      (⟨"a.com.", "A", "", "", 300, [("1.1.1.1", false)]⟩ : RecordSetEntry).dnsName =
        canonicalizeDomainName ep.dnsName ∧
      (⟨"a.com.", "A", "", "", 300, [("1.1.1.1", false)]⟩ : RecordSetEntry).recordType =
        ep.recordType :=
  (foldChanges_raw_key_aggregation
      ⟨[⟨"a.com", "A", ["1.1.1.1"], 300, []⟩], [], [],
       [⟨"a.com", "A", ["1.1.1.1"], 300, []⟩]⟩ []).2.2.2 "a.com/A"
    ⟨"a.com.", "A", "", "", 300, [("1.1.1.1", false)]⟩ (by decide)

/-- C7: `ApplyChanges` returns immediately with the zone-listing error, or
with the wrapped record-listing error, performing no mutation; after
successful listings every aggregated entry is attempted in entry order with
no retry and no early stop, the issued calls are the concatenation of the
per-entry calls, and the returned error is the first non-nil per-entry error
(nil when every entry succeeds). -/
theorem applyChanges_error_policy (dryRun : Bool) (domainFilter : String → Bool)
    (client : ClientModel) (changes : Changes) :
    (∀ e, getZones domainFilter client = .error e →
       applyChanges dryRun domainFilter client changes =
         ⟨[], some e, changes.create, changes.updateOld, changes.updateNew,
           changes.delete⟩) ∧
    (∀ mz e, getZones domainFilter client = .ok mz →
       Records domainFilter client = .error e →
       applyChanges dryRun domainFilter client changes =
         ⟨[], some ("failed to fetch active records: " ++ e), changes.create,
           changes.updateOld, changes.updateNew, changes.delete⟩) ∧
    (∀ mz eps, getZones domainFilter client = .ok mz →
       Records domainFilter client = .ok eps →
       (applyChanges dryRun domainFilter client changes).calls =
         (foldChanges changes eps).recordSets.flatMap
           (fun krs => (upsertRecordSet dryRun client krs.2 mz).1) ∧
       (applyChanges dryRun domainFilter client changes).result =
         firstSome ((foldChanges changes eps).recordSets.map
           (fun krs => (upsertRecordSet dryRun client krs.2 mz).2))) := by
  refine ⟨?_, ?_, ?_⟩
  · intro e h
    simp [applyChanges, h]
  · intro mz e hz hr
    simp [applyChanges, hz, hr]
  · intro mz eps hz hr
    constructor <;> simp [applyChanges, hz, hr, upsertLoop_spec]

/-- Witness for C7: a failing zone listing aborts with that error and no
calls; with listings succeeding and a client whose creates all fail, both
aggregated creates are still attempted and the first error is returned. -/
theorem applyChanges_error_policy_witness :
    applyChanges false (fun _ => true)
        ⟨.error "zone boom", fun _ => .ok [], fun _ _ => .ok "", fun _ _ _ => .ok (),
          fun _ _ => .ok ()⟩ ⟨[], [], [], []⟩ =
      ⟨[], some "zone boom", [], [], [], []⟩ ∧
    (applyChanges false (fun _ => true)
        ⟨.ok [⟨"zone-1", "example.com.", "PRIMARY", "ACTIVE"⟩], fun _ => .ok [],
          fun _ _ => .error "create boom", fun _ _ _ => .ok (),
          fun _ _ => .ok ()⟩
        ⟨[⟨"a.example.com.", "A", ["1.1.1.1"], 300, []⟩,
          ⟨"b.example.com.", "A", ["2.2.2.2"], 300, []⟩], [], [], []⟩).calls =
      [DnsCall.create "zone-1" ⟨"a.example.com.", "A", ["1.1.1.1"], 300⟩,
       DnsCall.create "zone-1" ⟨"b.example.com.", "A", ["2.2.2.2"], 300⟩] ∧
    (applyChanges false (fun _ => true)
        ⟨.ok [⟨"zone-1", "example.com.", "PRIMARY", "ACTIVE"⟩], fun _ => .ok [],
          fun _ _ => .error "create boom", fun _ _ _ => .ok (),
          fun _ _ => .ok ()⟩
        ⟨[⟨"a.example.com.", "A", ["1.1.1.1"], 300, []⟩,
          ⟨"b.example.com.", "A", ["2.2.2.2"], 300, []⟩], [], [], []⟩).result =
      some "create boom" := by
  refine ⟨?_, ?_, ?_⟩
  · exact (applyChanges_error_policy false (fun _ => true) _ _).1 "zone boom" rfl
  · have h := (applyChanges_error_policy false (fun _ => true)
        ⟨.ok [⟨"zone-1", "example.com.", "PRIMARY", "ACTIVE"⟩], fun _ => .ok [],
          fun _ _ => .error "create boom", fun _ _ _ => .ok (),
          fun _ _ => .ok ()⟩
        ⟨[⟨"a.example.com.", "A", ["1.1.1.1"], 300, []⟩,
          ⟨"b.example.com.", "A", ["2.2.2.2"], 300, []⟩], [], [], []⟩).2.2
        [("zone-1", "example.com.")] [] (by rfl) (by rfl)
    exact h.1.trans (by decide)
  · have h := (applyChanges_error_policy false (fun _ => true)
        ⟨.ok [⟨"zone-1", "example.com.", "PRIMARY", "ACTIVE"⟩], fun _ => .ok [],
          fun _ _ => .error "create boom", fun _ _ _ => .ok (),
          fun _ _ => .ok ()⟩
        ⟨[⟨"a.example.com.", "A", ["1.1.1.1"], 300, []⟩,
          ⟨"b.example.com.", "A", ["2.2.2.2"], 300, []⟩], [], [], []⟩).2.2
        [("zone-1", "example.com.")] [] (by rfl) (by rfl)
    exact h.2.trans (by decide)

/-- C10: the label repair mutates only the incoming change endpoint and only
its two identity labels: an endpoint already carrying both labels is left
untouched, an endpoint with no current-state match is left untouched, and
otherwise the missing labels are copied from the first current-state endpoint
with the same raw hostname and record type while every other field and label
is unchanged; `ApplyChanges` returns the change lists with exactly this
repair applied, so the mutation is visible to the caller. -/
theorem addDesignateIDLabels_backfill :
    (∀ (old : List Endpoint) (ep : Endpoint),
       (mapLookup ep.labels designateZoneID).isSome = true →
       (mapLookup ep.labels designateRecordSetID).isSome = true →
       addDesignateIDLabelsFromExistingEndpoints old ep = ep) ∧
    (∀ (old : List Endpoint) (ep : Endpoint),
       old.find? (fun oep => ep.recordType == oep.recordType &&
         ep.dnsName == oep.dnsName) = none →
       addDesignateIDLabelsFromExistingEndpoints old ep = ep) ∧
    (∀ (old : List Endpoint) (ep oep : Endpoint),
       ¬ ((mapLookup ep.labels designateZoneID).isSome = true ∧
          (mapLookup ep.labels designateRecordSetID).isSome = true) →
       old.find? (fun oep => ep.recordType == oep.recordType &&
         ep.dnsName == oep.dnsName) = some oep →
       (addDesignateIDLabelsFromExistingEndpoints old ep).dnsName = ep.dnsName ∧
       (addDesignateIDLabelsFromExistingEndpoints old ep).recordType =
         ep.recordType ∧
       (addDesignateIDLabelsFromExistingEndpoints old ep).targets = ep.targets ∧
       (addDesignateIDLabelsFromExistingEndpoints old ep).recordTTL =
         ep.recordTTL ∧
       mapLookup (addDesignateIDLabelsFromExistingEndpoints old ep).labels
           designateZoneID =
         (if (mapLookup ep.labels designateZoneID).isSome then
            mapLookup ep.labels designateZoneID
          else some (mapGetD oep.labels designateZoneID)) ∧
       mapLookup (addDesignateIDLabelsFromExistingEndpoints old ep).labels
           designateRecordSetID =
         (if (mapLookup ep.labels designateRecordSetID).isSome then
            mapLookup ep.labels designateRecordSetID
          else some (mapGetD oep.labels designateRecordSetID)) ∧
       (∀ q, q ≠ designateZoneID → q ≠ designateRecordSetID →
          mapLookup (addDesignateIDLabelsFromExistingEndpoints old ep).labels q =
            mapLookup ep.labels q)) ∧
    (∀ (dryRun : Bool) (domainFilter : String → Bool) (client : ClientModel)
       (changes : Changes) (mz : List (String × String)) (eps : List Endpoint),
       getZones domainFilter client = .ok mz →
       Records domainFilter client = .ok eps →
       (applyChanges dryRun domainFilter client changes).create =
         changes.create.map (addDesignateIDLabelsFromExistingEndpoints eps) ∧
       (applyChanges dryRun domainFilter client changes).updateOld =
         changes.updateOld.map (addDesignateIDLabelsFromExistingEndpoints eps) ∧
       (applyChanges dryRun domainFilter client changes).updateNew =
         changes.updateNew.map (addDesignateIDLabelsFromExistingEndpoints eps) ∧
       (applyChanges dryRun domainFilter client changes).delete =
         changes.delete.map (addDesignateIDLabelsFromExistingEndpoints eps)) := by
  have hzr : designateZoneID ≠ designateRecordSetID := by decide
  have hrz : designateRecordSetID ≠ designateZoneID := by decide
  refine ⟨?_, ?_, ?_, ?_⟩
  · intro old ep h1 h2
    simp [addDesignateIDLabelsFromExistingEndpoints, h1, h2]
  · intro old ep hfind
    by_cases h1 : (mapLookup ep.labels designateZoneID).isSome <;>
      by_cases h2 : (mapLookup ep.labels designateRecordSetID).isSome <;>
        simp [addDesignateIDLabelsFromExistingEndpoints, h1, h2, hfind]
  · intro old ep oep hmiss hfind
    by_cases h1 : (mapLookup ep.labels designateZoneID).isSome <;>
      by_cases h2 : (mapLookup ep.labels designateRecordSetID).isSome
    · exact absurd ⟨h1, h2⟩ hmiss
    · refine ⟨?_, ?_, ?_, ?_, ?_, ?_, ?_⟩
      · simp [addDesignateIDLabelsFromExistingEndpoints, h1, h2, hfind,
          mapLookup_mapInsert, hzr, hrz]
      · simp [addDesignateIDLabelsFromExistingEndpoints, h1, h2, hfind,
          mapLookup_mapInsert, hzr, hrz]
      · simp [addDesignateIDLabelsFromExistingEndpoints, h1, h2, hfind,
          mapLookup_mapInsert, hzr, hrz]
      · simp [addDesignateIDLabelsFromExistingEndpoints, h1, h2, hfind,
          mapLookup_mapInsert, hzr, hrz]
      · simp [addDesignateIDLabelsFromExistingEndpoints, h1, h2, hfind,
          mapLookup_mapInsert, hzr, hrz]
      · simp [addDesignateIDLabelsFromExistingEndpoints, h1, h2, hfind,
          mapLookup_mapInsert, hzr, hrz]
      · intro q hq1 hq2
        simp [addDesignateIDLabelsFromExistingEndpoints, h1, h2, hfind,
          mapLookup_mapInsert, hzr, hrz, Ne.symm hq1, Ne.symm hq2]
    · refine ⟨?_, ?_, ?_, ?_, ?_, ?_, ?_⟩
      · simp [addDesignateIDLabelsFromExistingEndpoints, h1, h2, hfind,
          mapLookup_mapInsert, hzr, hrz]
      · simp [addDesignateIDLabelsFromExistingEndpoints, h1, h2, hfind,
          mapLookup_mapInsert, hzr, hrz]
      · simp [addDesignateIDLabelsFromExistingEndpoints, h1, h2, hfind,
          mapLookup_mapInsert, hzr, hrz]
      · simp [addDesignateIDLabelsFromExistingEndpoints, h1, h2, hfind,
          mapLookup_mapInsert, hzr, hrz]
      · simp [addDesignateIDLabelsFromExistingEndpoints, h1, h2, hfind,
          mapLookup_mapInsert, hzr, hrz]
      · simp [addDesignateIDLabelsFromExistingEndpoints, h1, h2, hfind,
          mapLookup_mapInsert, hzr, hrz]
      · intro q hq1 hq2
        simp [addDesignateIDLabelsFromExistingEndpoints, h1, h2, hfind,
          mapLookup_mapInsert, hzr, hrz, Ne.symm hq1, Ne.symm hq2]
    · refine ⟨?_, ?_, ?_, ?_, ?_, ?_, ?_⟩
      · simp [addDesignateIDLabelsFromExistingEndpoints, h1, h2, hfind,
          mapLookup_mapInsert, hzr, hrz]
      · simp [addDesignateIDLabelsFromExistingEndpoints, h1, h2, hfind,
          mapLookup_mapInsert, hzr, hrz]
      · simp [addDesignateIDLabelsFromExistingEndpoints, h1, h2, hfind,
          mapLookup_mapInsert, hzr, hrz]
      · simp [addDesignateIDLabelsFromExistingEndpoints, h1, h2, hfind,
          mapLookup_mapInsert, hzr, hrz]
      · simp [addDesignateIDLabelsFromExistingEndpoints, h1, h2, hfind,
          mapLookup_mapInsert, hzr, hrz]
      · simp [addDesignateIDLabelsFromExistingEndpoints, h1, h2, hfind,
          mapLookup_mapInsert, hzr, hrz]
      · intro q hq1 hq2
        simp [addDesignateIDLabelsFromExistingEndpoints, h1, h2, hfind,
          mapLookup_mapInsert, hzr, hrz, Ne.symm hq1, Ne.symm hq2]
  · intro dryRun domainFilter client changes mz eps hz hr
    refine ⟨?_, ?_, ?_, ?_⟩ <;>
      simp [applyChanges, hz, hr, foldChanges, addEndpoints_snd]

/-- Witness for C10: a change endpoint carrying only an unrelated label gets
the two identity labels of the matching current-state endpoint written into
its label map, and the mutated endpoint is what `ApplyChanges` leaves in the
batch. -/
theorem addDesignateIDLabels_backfill_witness :
    mapLookup (addDesignateIDLabelsFromExistingEndpoints
        [⟨"www.example.com", "A", ["9.9.9.9"], 0,
          [(designateRecordSetID, "r9"), (designateZoneID, "z9"),
           (designateOriginalRecords, "9.9.9.9")]⟩]
        ⟨"www.example.com", "A", ["1.1.1.1"], 0, [("owner", "me")]⟩).labels
      designateZoneID = some "z9" ∧
    mapLookup (addDesignateIDLabelsFromExistingEndpoints
        [⟨"www.example.com", "A", ["9.9.9.9"], 0,
          [(designateRecordSetID, "r9"), (designateZoneID, "z9"),
           (designateOriginalRecords, "9.9.9.9")]⟩]
        ⟨"www.example.com", "A", ["1.1.1.1"], 0, [("owner", "me")]⟩).labels
      "owner" = some "me" ∧
    (applyChanges false (fun _ => true)
        ⟨.ok [⟨"z9", "example.com.", "PRIMARY", "ACTIVE"⟩],
          fun _ => .ok [⟨"r9", "z9", "www.example.com.", "A", 0, ["9.9.9.9"]⟩],
          fun _ _ => .ok "", fun _ _ _ => .ok (), fun _ _ => .ok ()⟩
        ⟨[⟨"www.example.com", "A", ["1.1.1.1"], 0, [("owner", "me")]⟩],
          [], [], []⟩).create =
      [⟨"www.example.com", "A", ["1.1.1.1"], 0,
        [("owner", "me"), (designateZoneID, "z9"),
         (designateRecordSetID, "r9")]⟩] := by
  have h3 := addDesignateIDLabels_backfill.2.2.1
      [⟨"www.example.com", "A", ["9.9.9.9"], 0,
        [(designateRecordSetID, "r9"), (designateZoneID, "z9"),
         (designateOriginalRecords, "9.9.9.9")]⟩]
      ⟨"www.example.com", "A", ["1.1.1.1"], 0, [("owner", "me")]⟩
      ⟨"www.example.com", "A", ["9.9.9.9"], 0,
        [(designateRecordSetID, "r9"), (designateZoneID, "z9"),
         (designateOriginalRecords, "9.9.9.9")]⟩
      (by decide) (by decide)
  have h4 := (addDesignateIDLabels_backfill.2.2.2 false (fun _ => true)
      ⟨.ok [⟨"z9", "example.com.", "PRIMARY", "ACTIVE"⟩],
        fun _ => .ok [⟨"r9", "z9", "www.example.com.", "A", 0, ["9.9.9.9"]⟩],
        fun _ _ => .ok "", fun _ _ _ => .ok (), fun _ _ => .ok ()⟩
      ⟨[⟨"www.example.com", "A", ["1.1.1.1"], 0, [("owner", "me")]⟩], [], [], []⟩
      [("z9", "example.com.")]
      [⟨"www.example.com", "A", ["9.9.9.9"], 0,
        [(designateRecordSetID, "r9"), (designateZoneID, "z9"),
         (designateOriginalRecords, "9.9.9.9")]⟩]
      (by rfl) (by rfl)).1
  refine ⟨?_, ?_, ?_⟩
  · exact h3.2.2.2.2.1.trans (by decide)
  · exact (h3.2.2.2.2.2.2 "owner" (by decide) (by decide)).trans (by decide)
  · exact h4.trans (by decide)

/-! ## Aggregated wanted-flag lemmas -/
theorem mapLookup_applyBaseline (recs : List String) :
    ∀ (ns : List (String × Bool)) (t : String),
      mapLookup (applyBaseline ns recs) t =
        if t ∈ recs ∧ t ≠ "" ∧ mapLookup ns t = none then some true
        else mapLookup ns t := by
  induction recs with
  | nil => intro ns t; simp [applyBaseline]
  | cons r rest ih =>
      intro ns t
      have hstep : applyBaseline ns (r :: rest) =
          applyBaseline
            (if mapLookup ns r = none ∧ r ≠ "" then mapInsert ns r true else ns)
            rest := by
        by_cases hc : mapLookup ns r = none ∧ r ≠ "" <;>
          simp [applyBaseline, hc]
      rw [hstep, ih]
      by_cases hc : mapLookup ns r = none ∧ r ≠ ""
      · rw [if_pos hc]
        by_cases hrt : r = t
        · subst hrt
          simp [mapLookup_mapInsert, hc.1, hc.2]
        · have htr : ¬ t = r := fun h => hrt h.symm
          rw [mapLookup_mapInsert]
          simp only [if_neg hrt]
          by_cases hmem : t ∈ rest <;> simp [hmem, htr]
      · rw [if_neg hc]
        by_cases hrt : r = t
        · subst hrt
          have hno : ¬ (r ≠ "" ∧ mapLookup ns r = none) := by
            intro h
            exact hc ⟨h.2, h.1⟩
          by_cases hmem : r ∈ rest <;> simp [hmem, hno, and_comm]
        · have htr : ¬ t = r := fun h => hrt h.symm
          by_cases hmem : t ∈ rest <;> simp [hmem, htr]

theorem mapLookup_markTargets (targets : List String) :
    ∀ (ns : List (String × Bool)) (del : Bool) (t : String),
      mapLookup (markTargets ns targets del) t =
        if t ∈ targets then some (!del) else mapLookup ns t := by
  induction targets with
  | nil => intro ns del t; simp [markTargets]
  | cons x rest ih =>
      intro ns del t
      have hstep : markTargets ns (x :: rest) del =
          markTargets (mapInsert ns x (!del)) rest del := by
        simp [markTargets]
      rw [hstep, ih, mapLookup_mapInsert]
      by_cases hxt : x = t
      · subst hxt
        by_cases hmem : x ∈ rest <;> simp [hmem]
      · have htx : ¬ t = x := fun h => hxt h.symm
        by_cases hmem : t ∈ rest <;> simp [hmem, hxt, htx]

theorem repair_preserves_content (old : List Endpoint) (ep : Endpoint) :
    (addDesignateIDLabelsFromExistingEndpoints old ep).recordType =
      ep.recordType ∧
    (addDesignateIDLabelsFromExistingEndpoints old ep).targets = ep.targets ∧
    mapGetD (addDesignateIDLabelsFromExistingEndpoints old ep).labels
        designateOriginalRecords =
      mapGetD ep.labels designateOriginalRecords := by
  have hzo : designateZoneID ≠ designateOriginalRecords := by decide
  have hro : designateRecordSetID ≠ designateOriginalRecords := by decide
  unfold addDesignateIDLabelsFromExistingEndpoints
  by_cases h1 : (mapLookup ep.labels designateZoneID).isSome <;>
    by_cases h2 : (mapLookup ep.labels designateRecordSetID).isSome <;>
      cases hfind : old.find? (fun oep => ep.recordType == oep.recordType &&
          ep.dnsName == oep.dnsName) <;>
        simp [h1, h2, hfind, mapGetD, mapLookup_mapInsert, hzo, hro]

theorem effectiveTargets_repair (old : List Endpoint) (ep : Endpoint) :
    effectiveTargets (addDesignateIDLabelsFromExistingEndpoints old ep) =
      effectiveTargets ep := by
  obtain ⟨hrt, htg, _⟩ := repair_preserves_content old ep
  simp [effectiveTargets, hrt, htg]

theorem origRecs_repair (old : List Endpoint) (ep : Endpoint) :
    splitNul (mapGetD
        (addDesignateIDLabelsFromExistingEndpoints old ep).labels
        designateOriginalRecords) =
      splitNul (mapGetD ep.labels designateOriginalRecords) := by
  obtain ⟨_, _, hlab⟩ := repair_preserves_content old ep
  rw [hlab]

theorem wantedAt_nil (k t : String) : wantedAt [] k t = none := rfl

theorem addEndpointEntry_names_eq (ep : Endpoint)
    (m : List (String × RecordSetEntry)) (old : List Endpoint) (del : Bool) :
    (addEndpointEntry ep m old del).names =
      markTargets
        (applyBaseline
          (match mapLookup m (epKey ep) with
           | some rs => rs.names
           | none => [])
          (splitNul (mapGetD
            (addDesignateIDLabelsFromExistingEndpoints old ep).labels
            designateOriginalRecords)))
        (effectiveTargets (addDesignateIDLabelsFromExistingEndpoints old ep))
        del := by
  unfold addEndpointEntry
  cases hl : mapLookup m (epKey ep) <;>
    · simp only [hl]
      split_ifs <;> simp [newRecordSetEntry]

theorem mapLookup_addEndpointEntry_names (ep : Endpoint)
    (m : List (String × RecordSetEntry)) (old : List Endpoint) (del : Bool)
    (t : String) :
    mapLookup (addEndpointEntry ep m old del).names t =
      markStep t (wantedAt m (epKey ep) t) (ep, del) := by
  rw [addEndpointEntry_names_eq, mapLookup_markTargets, mapLookup_applyBaseline,
    effectiveTargets_repair, origRecs_repair]
  have hw : mapLookup
      (match mapLookup m (epKey ep) with
       | some rs => rs.names
       | none => []) t = wantedAt m (epKey ep) t := by
    unfold wantedAt
    cases mapLookup m (epKey ep) <;> simp
  rw [hw]
  have hiff : t ∈ origRecsOf ep ↔
      t ∈ splitNul (mapGetD ep.labels designateOriginalRecords) ∧ t ≠ "" := by
    simp [origRecsOf, List.mem_filter]
  by_cases hefft : t ∈ effectiveTargets ep
  · simp [markStep, hefft]
  · by_cases hne : t = ""
    · subst hne
      have hnotin : ("" : String) ∉ origRecsOf ep := by
        simp [origRecsOf, List.mem_filter]
      simp [markStep, hefft, hnotin]
    · by_cases hst : wantedAt m (epKey ep) t = none <;>
        by_cases hsp : t ∈ splitNul (mapGetD ep.labels designateOriginalRecords) <;>
          simp [markStep, hefft, hst, hsp, hne, hiff]

theorem wantedAt_addEndpoint (ep : Endpoint) (m : List (String × RecordSetEntry))
    (old : List Endpoint) (del : Bool) (k t : String) :
    wantedAt (addEndpoint ep m old del).1 k t =
      if epKey ep = k then markStep t (wantedAt m k t) (ep, del)
      else wantedAt m k t := by
  by_cases hk : epKey ep = k
  · rw [if_pos hk]
    have : wantedAt (addEndpoint ep m old del).1 k =
        mapLookup (addEndpointEntry ep m old del).names := by
      funext s
      unfold wantedAt
      rw [mapLookup_addEndpoint, if_pos hk]
    rw [this, mapLookup_addEndpointEntry_names, hk]
  · rw [if_neg hk]
    unfold wantedAt
    rw [mapLookup_addEndpoint, if_neg hk]

theorem wantedAt_runOps (old : List Endpoint) (ops : List (Endpoint × Bool)) :
    ∀ (m : List (String × RecordSetEntry)) (k t : String),
      wantedAt (runOps old ops m) k t =
        (ops.filter (fun op => epKey op.1 == k)).foldl (markStep t)
          (wantedAt m k t) := by
  induction ops with
  | nil => intro m k t; simp [runOps]
  | cons op rest ih =>
      intro m k t
      rw [runOps_cons, ih]
      by_cases hk : epKey op.1 = k
      · rw [wantedAt_addEndpoint, if_pos hk]
        have hbk : (epKey op.1 == k) = true := by simp [hk]
        simp [List.filter_cons, hbk]
      · rw [wantedAt_addEndpoint, if_neg hk]
        have hbk : (epKey op.1 == k) = false := by simp [hk]
        simp [List.filter_cons, hbk]

theorem markFold_last_override (t : String) (opsK : List (Endpoint × Bool)) :
    opsK.foldl (markStep t) none =
      (match (opsK.filter
          (fun op => decide (t ∈ effectiveTargets op.1))).getLast? with
       | some op => some (!op.2)
       | none =>
           if opsK.any (fun op => decide (t ∈ origRecsOf op.1)) then some true
           else none) := by
  induction opsK using List.reverseRecOn with
  | nil => simp
  | append_singleton l op ih =>
      rw [List.foldl_append, List.foldl_cons, List.foldl_nil, ih]
      by_cases hm : t ∈ effectiveTargets op.1
      · have hfil : (l ++ [op]).filter
            (fun op => decide (t ∈ effectiveTargets op.1)) =
            l.filter (fun op => decide (t ∈ effectiveTargets op.1)) ++ [op] := by
          simp [List.filter_append, hm]
        rw [hfil, List.getLast?_concat]
        simp [markStep, hm]
      · have hfil : (l ++ [op]).filter
            (fun op => decide (t ∈ effectiveTargets op.1)) =
            l.filter (fun op => decide (t ∈ effectiveTargets op.1)) := by
          simp [List.filter_append, hm]
        rw [hfil]
        cases hprev : (l.filter
            (fun op => decide (t ∈ effectiveTargets op.1))).getLast? with
        | some op' => simp [markStep, hm]
        | none =>
            by_cases hb : l.any (fun op => decide (t ∈ origRecsOf op.1)) <;>
              simp [markStep, List.any_append, hm, hb]

/-- C1: in the aggregation produced by replaying creates, update-olds,
update-news and deletes in this fixed order, a target string carries
wanted=true in an entry exactly when the LAST operation of the entry's key
that mentions it is an addition (create/update-new), or, when no operation of
the batch mentions it, when it occurs in the non-empty original-records
baseline replayed from the operations' labels — so a later mark always
overrides an earlier one, and a baseline target mentioned by no operation
stays wanted (sibling preservation). -/
theorem foldChanges_wanted_characterization (changes : Changes)
    (old : List Endpoint) (k t : String) :
    wantedAt (foldChanges changes old).recordSets k t =
      (match (((changeOps changes).filter (fun op => epKey op.1 == k)).filter
          (fun op => decide (t ∈ effectiveTargets op.1))).getLast? with
       | some op => some (!op.2)
       | none =>
           if ((changeOps changes).filter (fun op => epKey op.1 == k)).any
               (fun op => decide (t ∈ origRecsOf op.1)) then some true
           else none) := by
  rw [foldChanges_recordSets, wantedAt_runOps, wantedAt_nil,
    markFold_last_override]
